import Mathlib

/-!
Verification of the TRPO training agent (`PolicyGradient/TRPO/trpo.py`)
against its design specification.

The orchestrator `trpo.py` is embedded directly.  Components it imports
from elsewhere in the repository (`Common/GAE.py`'s `estimate_advantages`,
`PolicyGradient/algorithms/trpo_step.py`'s line search, `Utils/zfilter.py`'s
running normalizer) are modelled from the specification text, as indicated
in their doc comments.  Real numbers are embedded as rationals; tensors of
per-step scalars as `List ℚ`; the file system as a partial map from file
names to saved checkpoints; the torch global RNG as an abstract generator
state that network initializers consume.
-/

/- ===================== Advantage estimation (GAE) ===================== -/

/-- Modelled from the spec: the advantage pass of `estimate_advantages`
(`Common/GAE.py`, not present under src/).  Processes the sequences in
reverse index order with `δ_i = R_i + γ·M_i·V_{i+1} − V_i` (`V_N` treated
as 0) and `gae_i = δ_i + γ·λ·M_i·gae_{i+1}`; `Advantage_i = gae_i`.
Written as forward structural recursion: the head advantage is computed
from the head reward/mask/value, the next value `V_{i+1}` (0 past the
end) and the next advantage (0 past the end). -/
def gaeAdvantages (γ τ : ℚ) : List ℚ → List ℚ → List ℚ → List ℚ
  | r :: R, m :: M, v :: V =>
    let rest := gaeAdvantages γ τ R M V
    (r + γ * m * V.getD 0 0 - v + γ * τ * m * rest.getD 0 0) :: rest
  | _, _, _ => []

/-- Modelled from the spec: `estimate_advantages(rewards, masks, values, gamma, tau)`
returns the advantage sequence and the return sequence `Return_i = Advantage_i + V_i`. -/
def estimate_advantages (R M V : List ℚ) (γ τ : ℚ) : List ℚ × List ℚ :=
  let A := gaeAdvantages γ τ R M V
  (A, A.zipWith (· + ·) V)

/-- Modelled from the spec: the candidate parameter vectors tried by `trpo_step`'s
backtracking line search — the pre-step parameters θ plus the full step scaled by
`shrink^k` for k = 0, 1, …, attempts − 1, in that order. -/
def lineSearchCandidates (θ fullstep : List ℚ) (shrink : ℚ) (attempts : ℕ) :
    List (List ℚ) :=
  (List.range attempts).map
    (fun k => θ.zipWith (· + ·) (fullstep.map (fun x => shrink ^ k * x)))

/-- Modelled from the spec: the backtracking line search of `trpo_step`
(`PolicyGradient/algorithms/trpo_step.py`, not present under src/).  `surr` and `kl`
evaluate the surrogate objective and the measured KL divergence against the pre-step
policy at a tentatively applied candidate parameter vector; `f0` is the pre-step
surrogate value.  The search accepts the first candidate whose KL divergence is at
most `max_kl` and whose surrogate objective does not decrease versus `f0`. -/
def lineSearch (surr kl : List ℚ → ℚ) (max_kl f0 : ℚ) (θ fullstep : List ℚ)
    (shrink : ℚ) (attempts : ℕ) : Option (List ℚ) :=
  (lineSearchCandidates θ fullstep shrink attempts).find?
    (fun c => decide (kl c ≤ max_kl) && decide (f0 ≤ surr c))

/-- Modelled from the spec: the policy-parameter update performed by `trpo_step` — the
accepted line-search candidate, or the pre-step parameters restored unchanged when the
search exhausts its shrink attempts (a recoverable no-op, no error raised). -/
def trpo_step_params (surr kl : List ℚ → ℚ) (max_kl : ℚ) (θ fullstep : List ℚ)
    (shrink : ℚ) (attempts : ℕ) : List ℚ :=
  match lineSearch surr kl max_kl (surr θ) θ fullstep shrink attempts with
  | some c => c
  | none => θ

/-- Surrogate-objective evaluation used to instantiate C2's theorem concretely. -/
def wSurr : List ℚ → ℚ := fun l => l.getD 0 0

/-- KL evaluation below the trust-region bound, used to instantiate C2's theorem. -/
def wKlGood : List ℚ → ℚ := fun l => l.getD 0 0 - l.getD 0 0

/-- KL evaluation above the trust-region bound everywhere, used to instantiate the
failure branch of C2's theorem. -/
def wKlBad : List ℚ → ℚ := fun l => l.getD 0 0 - l.getD 0 0 + 2

/-- The flat policy and value parameters owned by the TRPO agent. -/
structure AgentState where
  policyParams : List ℚ
  valueParams : List ℚ

/-- The statistics record returned by the collector (`collect_samples`), as consumed by
`TRPO.learn`. -/
structure CollectLog where
  num_steps : ℕ
  num_episodes : ℕ
  total_reward : ℚ
  avg_reward : ℚ
  min_episode_reward : ℚ
  max_episode_reward : ℚ
  sample_time : ℚ

/-- A batch of transitions sampled from memory (`memory.sample()`), per-step scalars. -/
structure Batch where
  state : List ℚ
  action : List ℚ
  reward : List ℚ
  mask : List ℚ
  log_prob : List ℚ

/-- The scalar statistics `learn` prints (trpo.py lines 105-107): the collector's step
count, total, min, max and average episode reward and the wall-clock sample time. -/
def learnPrinted (log : CollectLog) : List (String × ℚ) :=
  [("num steps", (log.num_steps : ℚ)),
   ("total reward", log.total_reward),
   ("min reward", log.min_episode_reward),
   ("max reward", log.max_episode_reward),
   ("average reward", log.avg_reward),
   ("sample time", log.sample_time)]

/-- The scalars `learn` records on the writer (trpo.py lines 110-116). -/
def learnWriterScalars (log : CollectLog) : List (String × ℚ) :=
  [("total reward", log.total_reward),
   ("average reward", log.avg_reward),
   ("min reward", log.min_episode_reward),
   ("max reward", log.max_episode_reward),
   ("num steps", (log.num_steps : ℚ))]

/-- One `learn` iteration's outputs: the emitted statistics, the advantage/return arrays
handed to the TRPO update, and the agent state after the update. -/
structure LearnResult where
  printed : List (String × ℚ)
  writerScalars : List (String × ℚ)
  advantages : List ℚ
  returns : List ℚ
  agent : AgentState

/-- Embedding of `TRPO.learn` (trpo.py lines 101-134): after the collector returns a
batch and its statistics, `learn` prints and records the statistics, evaluates the value
network under no-grad on the batch states (`batch_value`) against the current value
parameters, calls `estimate_advantages` on rewards, masks and `batch_value`, and only
then invokes `trpo_step` — abstracted as `step`, covering both the value fit and the
constrained policy update — on the agent state. -/
def learn (valueNet : List ℚ → ℚ → ℚ)
    (step : AgentState → Batch → List ℚ → List ℚ → AgentState)
    (s : AgentState) (γ τ : ℚ) (batch : Batch) (log : CollectLog) : LearnResult :=
  let batch_value := batch.state.map (valueNet s.valueParams)
  let ar := estimate_advantages batch.reward batch.mask batch_value γ τ
  { printed := learnPrinted log
    writerScalars := learnWriterScalars log
    advantages := ar.1
    returns := ar.2
    agent := step s batch ar.2 ar.1 }

/-- Constant value network used to run `learn` on a concrete iteration. -/
def cValueNet : List ℚ → ℚ → ℚ := fun _ _ => 0

/-- Identity update routine used to run `learn` on a concrete iteration. -/
def cStep : AgentState → Batch → List ℚ → List ℚ → AgentState := fun s _ _ _ => s

/-- An agent state with empty parameter vectors, for concrete runs. -/
def cAgent : AgentState := ⟨[], []⟩

/-- An empty batch, for concrete runs. -/
def cBatch : Batch := ⟨[], [], [], [], []⟩

/-- A collector log reporting 7 steps over 3 episodes, for concrete runs. -/
def cLog : CollectLog := ⟨7, 3, 100, 25, 10, 40, 2⟩

/-- Embedding of `torch.manual_seed(seed)` as it acts on the ambient global generator
state: the previous state is discarded and replaced by a state determined by the seed
alone. -/
def manual_seed (seed _g : ℕ) : ℕ := seed

/-- Embedding of the seeding and network construction of `TRPO._init_model`
(trpo.py lines 49-63) with no `model_path`: `torch.manual_seed(seed)` reseeds the global
generator from the ambient state `g`, then the policy network — the continuous or the
discrete branch — and the value network are built, their initializers drawing from the
generator.  The initializers are abstract parameters: any generator-consuming
constructors. -/
def init_model_params (env_continuous : Bool)
    (initPolicy initDiscretePolicy : ℕ → ℕ → ℕ → List ℚ × ℕ)
    (initValue : ℕ → ℕ → List ℚ × ℕ)
    (num_states num_actions seed : ℕ) (g : ℕ) : AgentState × ℕ :=
  let g1 := manual_seed seed g
  let pg := if env_continuous then initPolicy num_states num_actions g1
            else initDiscretePolicy num_states num_actions g1
  let vg := initValue num_states pg.2
  (⟨pg.1, vg.1⟩, vg.2)

/-- The running normalizer's internal statistics: observation count, running mean and
second central moment. -/
structure ZState where
  n : ℕ
  mean : ℚ
  m2 : ℚ
deriving DecidableEq

/-- Modelled from the spec: the running-statistics push of the normalizer
(`Utils/zfilter.py`, not present under src/) — the Welford update of count, running mean
and second moment with one observation. -/
def zpush (z : ZState) (x : ℚ) : ZState :=
  let n' := z.n + 1
  let d := x - z.mean
  let mean' := z.mean + d / (n' : ℚ)
  ⟨n', mean', z.m2 + d * (x - mean')⟩

/-- Clipping to the interval [-c, c]. -/
def zclip (c x : ℚ) : ℚ := max (-c) (min c x)

/-- Modelled from the spec: the normalized observation — demeaned and clipped at the
clip bound 5 that `TRPO._init_model` configures.  The spec pins only that running
mean/variance statistics back the normalization; the standard-deviation division is not
expressible over ℚ and none of the claims depend on the output values. -/
def znorm (z : ZState) (x : ℚ) : ℚ := zclip 5 (x - z.mean)

/-- Modelled from the spec: the normalizer's update flag default — a plain call
`running_state(state)`, the only form `eval` uses, updates the statistics. -/
def zfilter_update_default : Bool := true

/-- Modelled from the spec: one call of the running normalizer — when the update flag is
set, push the observation into the running statistics as a side effect, then return the
normalized observation. -/
def zfilter_call (z : ZState) (x : ℚ) (upd : Bool) : ZState × ℚ :=
  let z' := if upd then zpush z x else z
  (z', znorm z' x)

/-- The environment interface `eval` consumes: a hidden internal state, `reset` yielding
the initial internal state and observation, and `step` mapping an action to the next
internal state, next observation, reward and done flag. -/
structure Env (ES Act : Type) where
  reset : ES × ℚ
  step : ES → Act → ES × ℚ × ℚ × Bool

/-- The outcome of one `TRPO.eval` call: the reported test reward, the running
normalizer state after the episode, whether `env.close()` was reached, and the
episode's trace of (reward, done) pairs. -/
structure EvalResult where
  testReward : ℚ
  z : ZState
  envClosed : Bool
  trace : List (ℚ × Bool)
deriving DecidableEq

/-- The loop of `TRPO.eval` (trpo.py lines 85-96), fuel-bounded: normalize the current
observation through the running normalizer (a plain, default-updating call), choose an
action under the current policy, step the environment, accumulate the reward, and stop
at the first step whose done flag is set.  `none` means the fuel ran out before the
episode ended — the Python loop would still be running. -/
def evalLoop {ES Act : Type} (env : Env ES Act) (policy : ℚ → Act) :
    ℕ → ES → ℚ → ZState → Option (ℚ × List (ℚ × Bool) × ZState)
  | 0, _, _, _ => none
  | fuel + 1, es, obs, z =>
    let z' := (zfilter_call z obs zfilter_update_default).1
    let nobs := (zfilter_call z obs zfilter_update_default).2
    let st := env.step es (policy nobs)
    if st.2.2.2 then some (st.2.2.1, [(st.2.2.1, true)], z')
    else
      (evalLoop env policy fuel st.1 st.2.1 z').map
        (fun res => (st.2.2.1 + res.1, (st.2.2.1, false) :: res.2.1, res.2.2))

/-- Embedding of `TRPO.eval` (trpo.py lines 83-99): reset the environment, run one
episode under the current policy until the first done flag, then close the environment
and report the accumulated test reward. -/
def eval {ES Act : Type} (env : Env ES Act) (policy : ℚ → Act) (z0 : ZState)
    (fuel : ℕ) : Option EvalResult :=
  match evalLoop env policy fuel env.reset.1 env.reset.2 z0 with
  | some (w, tr, zf) => some ⟨w, zf, true, tr⟩
  | none => none

/-- A one-step environment: every step returns reward 1 and ends the episode. -/
def cEnvDone : Env Unit ℚ := ⟨((), 0), fun _ _ => ((), 0, 1, true)⟩

/-- The identity policy on normalized observations. -/
def cPolicy : ℚ → ℚ := fun x => x

/-- A persisted checkpoint: the triple `(policy_net, value_net, running_state)` that
`TRPO.save` pickles as one unit. -/
structure Checkpoint where
  policy : List ℚ
  value : List ℚ
  runningState : ZState

/-- The checkpoint file name used by both `save` and `_init_model`:
`'{path}/{env_id}_trpo.p'`. -/
def model_file_name (path env_id : String) : String :=
  path ++ "/" ++ env_id ++ "_trpo.p"

/-- Embedding of `TRPO.save` (trpo.py lines 136-140): write the triple to
`'{save_path}/{env_id}_trpo.p'` in the file system, leaving every other file
unchanged. -/
def save (fs : String → Option Checkpoint) (save_path env_id : String)
    (c : Checkpoint) : String → Option Checkpoint :=
  fun name => if name = model_file_name save_path env_id then some c else fs name

/-- Embedding of the model-loading phase of `TRPO._init_model` (trpo.py lines 65-68), as
run during `TRPO.__init__`: when `model_path` is set, `pickle.load(open(...))` reads
`'{model_path}/{env_id}_trpo.p'` once — a missing or unreadable file raises, surfacing
the failure to the caller as `Except.error` before any training iteration; when
`model_path` is not set, the freshly initialized triple is kept.  The second component
records every file name read, in order. -/
def trpoConstruct (fs : String → Option Checkpoint) (model_path : Option String)
    (env_id : String) (fresh : Checkpoint) : Except String Checkpoint × List String :=
  match model_path with
  | none => (Except.ok fresh, [])
  | some p =>
    match fs (model_file_name p env_id) with
    | some c => (Except.ok c, [model_file_name p env_id])
    | none => (Except.error (model_file_name p env_id), [model_file_name p env_id])

/-- A file system holding no checkpoint files. -/
def emptyFS : String → Option Checkpoint := fun _ => none

/- ===================== Theorems ===================== -/

theorem gaeAdvantages_length (γ τ : ℚ) :
    ∀ R M V : List ℚ,
      (gaeAdvantages γ τ R M V).length = min R.length (min M.length V.length)
  | [], [], _ => by simp [gaeAdvantages]
  | [], _ :: _, _ => by simp [gaeAdvantages]
  | _ :: _, [], _ => by simp [gaeAdvantages]
  | _ :: _, _ :: _, [] => by simp [gaeAdvantages]
  | r :: R, m :: M, v :: V => by
    simp [gaeAdvantages, gaeAdvantages_length γ τ R M V]
    omega

theorem gaeAdvantages_getD (γ τ : ℚ) :
    ∀ (R M V : List ℚ) (i : ℕ),
      M.length = R.length → V.length = R.length → i < R.length →
      (gaeAdvantages γ τ R M V).getD i 0
        = (R.getD i 0 + γ * M.getD i 0 * V.getD (i + 1) 0 - V.getD i 0)
          + γ * τ * M.getD i 0 * (gaeAdvantages γ τ R M V).getD (i + 1) 0
  | r :: R, m :: M, v :: V, 0, _, _, _ => by
    simp [gaeAdvantages, List.getD]
  | r :: R, m :: M, v :: V, i + 1, hM, hV, hi => by
    have hM' : M.length = R.length := by simpa using hM
    have hV' : V.length = R.length := by simpa using hV
    have hi' : i < R.length := by simpa using hi
    have ih := gaeAdvantages_getD γ τ R M V i hM' hV' hi'
    simpa [gaeAdvantages, List.getD] using ih
  | [], M, V, i, hM, hV, hi => by simp at hi

theorem exists_cons_of_length_pos : ∀ (l : List ℚ), 0 < l.length → ∃ x t, l = x :: t
  | [], h => by simp at h
  | x :: t, _ => ⟨x, t, rfl⟩

theorem take_eq_getD_zero {l l' : List ℚ} {n : ℕ} (hn : 0 < n)
    (h : l.take n = l'.take n) : l.getD 0 0 = l'.getD 0 0 := by
  cases l with
  | nil =>
    cases l' with
    | nil => rfl
    | cons y ys =>
      cases n with
      | zero => omega
      | succ k => simp at h
  | cons x xs =>
    cases l' with
    | nil =>
      cases n with
      | zero => omega
      | succ k => simp at h
    | cons y ys =>
      cases n with
      | zero => omega
      | succ k =>
        rw [List.take_succ_cons, List.take_succ_cons] at h
        simp only [List.cons.injEq] at h
        simp [List.getD, h.1]

theorem zipWith_add_getD : ∀ (A V : List ℚ) (i : ℕ), i < A.length → i < V.length →
    (A.zipWith (· + ·) V).getD i 0 = A.getD i 0 + V.getD i 0
  | a :: A, v :: V, 0, _, _ => by simp [List.getD]
  | a :: A, v :: V, i + 1, hA, hV => by
    simpa [List.getD] using zipWith_add_getD A V i (by simpa using hA) (by simpa using hV)
  | [], _, i, hA, _ => by simp at hA
  | _ :: _, [], i, _, hV => by simp at hV

theorem gaeAdvantages_no_leak (γ τ : ℚ) (i : ℕ) :
    ∀ R M V R' M' V' : List ℚ,
      M.length = R.length → V.length = R.length →
      M'.length = R'.length → V'.length = R'.length →
      i < R.length → i < R'.length →
      R.take (i + 1) = R'.take (i + 1) → M.take (i + 1) = M'.take (i + 1) →
      V.take (i + 1) = V'.take (i + 1) → M.getD i 0 = 0 →
      (gaeAdvantages γ τ R M V).take (i + 1)
        = (gaeAdvantages γ τ R' M' V').take (i + 1) := by
  induction i with
  | zero =>
    intro R M V R' M' V' hM hV hM' hV' hR hR' htR htM htV hm0
    obtain ⟨r, R1, rfl⟩ := exists_cons_of_length_pos R (by omega)
    obtain ⟨m, M1, rfl⟩ := exists_cons_of_length_pos M (by omega)
    obtain ⟨v, V1, rfl⟩ := exists_cons_of_length_pos V (by omega)
    obtain ⟨r', R1', rfl⟩ := exists_cons_of_length_pos R' (by omega)
    obtain ⟨m', M1', rfl⟩ := exists_cons_of_length_pos M' (by omega)
    obtain ⟨v', V1', rfl⟩ := exists_cons_of_length_pos V' (by omega)
    simp only [List.getD_cons_zero] at hm0
    simp only [List.take_succ_cons, List.take_zero, List.cons.injEq, and_true] at htR htM htV
    subst htR; subst htM; subst htV; subst hm0
    simp [gaeAdvantages]
  | succ i ih =>
    intro R M V R' M' V' hM hV hM' hV' hR hR' htR htM htV hm0
    obtain ⟨r, R1, rfl⟩ := exists_cons_of_length_pos R (by omega)
    obtain ⟨m, M1, rfl⟩ := exists_cons_of_length_pos M (by omega)
    obtain ⟨v, V1, rfl⟩ := exists_cons_of_length_pos V (by omega)
    obtain ⟨r', R1', rfl⟩ := exists_cons_of_length_pos R' (by omega)
    obtain ⟨m', M1', rfl⟩ := exists_cons_of_length_pos M' (by omega)
    obtain ⟨v', V1', rfl⟩ := exists_cons_of_length_pos V' (by omega)
    simp only [List.length_cons] at hM hV hM' hV' hR hR'
    rw [List.take_succ_cons, List.take_succ_cons] at htR htM htV
    simp only [List.cons.injEq] at htR htM htV
    obtain ⟨hr, htR1⟩ := htR
    obtain ⟨hm, htM1⟩ := htM
    obtain ⟨hv, htV1⟩ := htV
    simp only [List.getD_cons_succ] at hm0
    have ih' := ih R1 M1 V1 R1' M1' V1' (by omega) (by omega) (by omega) (by omega)
      (by omega) (by omega) htR1 htM1 htV1 hm0
    have hVhead : V1.getD 0 0 = V1'.getD 0 0 := take_eq_getD_zero (Nat.succ_pos i) htV1
    have hGhead : (gaeAdvantages γ τ R1 M1 V1).getD 0 0
        = (gaeAdvantages γ τ R1' M1' V1').getD 0 0 :=
      take_eq_getD_zero (Nat.succ_pos i) ih'
    subst hr; subst hm; subst hv
    simp only [List.getD, List.get?_eq_getElem?] at hVhead hGhead
    simp [gaeAdvantages, List.take_succ_cons, hVhead, hGhead, ih']

/-- C1: for equal-length reward sequence R, mask sequence M and value sequence V, with
γ ∈ (0,1) and τ ∈ [0,1], `estimate_advantages` returns Advantage and Return of length N
satisfying the backward recurrence `Advantage_i = (R_i + γ·M_i·V_{i+1} − V_i) + γ·τ·M_i·Advantage_{i+1}`
(with `V_N` and `Advantage_N` treated as 0) and `Return_i = Advantage_i + V_i`; and whenever
`M_i = 0`, positions ≤ i are computed independently of all positions > i: any other input
triple agreeing with (R, M, V) on positions ≤ i yields the same advantages and returns on
positions ≤ i. -/
theorem estimate_advantages_spec (γ τ : ℚ) (R M V : List ℚ)
    (hM : M.length = R.length) (hV : V.length = R.length)
    (hγ : 0 < γ ∧ γ < 1) (hτ : 0 ≤ τ ∧ τ ≤ 1) :
    (estimate_advantages R M V γ τ).1.length = R.length ∧
    (estimate_advantages R M V γ τ).2.length = R.length ∧
    (∀ i, i < R.length →
      (estimate_advantages R M V γ τ).1.getD i 0
        = (R.getD i 0 + γ * M.getD i 0 * V.getD (i + 1) 0 - V.getD i 0)
          + γ * τ * M.getD i 0 * (estimate_advantages R M V γ τ).1.getD (i + 1) 0) ∧
    (∀ i, i < R.length →
      (estimate_advantages R M V γ τ).2.getD i 0
        = (estimate_advantages R M V γ τ).1.getD i 0 + V.getD i 0) ∧
    (∀ i, i < R.length → M.getD i 0 = 0 →
      ∀ R' M' V' : List ℚ,
        M'.length = R'.length → V'.length = R'.length → i < R'.length →
        R.take (i + 1) = R'.take (i + 1) → M.take (i + 1) = M'.take (i + 1) →
        V.take (i + 1) = V'.take (i + 1) →
        (estimate_advantages R M V γ τ).1.take (i + 1)
          = (estimate_advantages R' M' V' γ τ).1.take (i + 1) ∧
        (estimate_advantages R M V γ τ).2.take (i + 1)
          = (estimate_advantages R' M' V' γ τ).2.take (i + 1)) := by
  simp only [estimate_advantages]
  have hlen : (gaeAdvantages γ τ R M V).length = R.length := by
    rw [gaeAdvantages_length]; omega
  refine ⟨hlen, ?_, ?_, ?_, ?_⟩
  · rw [List.length_zipWith]; omega
  · intro i hi
    exact gaeAdvantages_getD γ τ R M V i hM hV hi
  · intro i hi
    exact zipWith_add_getD _ V i (by omega) (by omega)
  · intro i hi hm0 R' M' V' hM' hV' hi' htR htM htV
    have hA := gaeAdvantages_no_leak γ τ i R M V R' M' V' hM hV hM' hV' hi hi' htR htM htV hm0
    refine ⟨hA, ?_⟩
    rw [List.take_zipWith, List.take_zipWith, hA, htV]

/-- Concrete instantiation of C1's theorem at the spec's §8 scenario:
R = [1,1,1,1], M = [1,1,1,0], V = [0,0,0,0], γ = 0.99, τ = 0.95. -/
theorem estimate_advantages_spec_witness :
    (([1, 1, 1, 0] : List ℚ).length = ([1, 1, 1, 1] : List ℚ).length) ∧
    (([0, 0, 0, 0] : List ℚ).length = ([1, 1, 1, 1] : List ℚ).length) ∧
    ((0 : ℚ) < 99 / 100 ∧ (99 : ℚ) / 100 < 1) ∧
    ((0 : ℚ) ≤ 95 / 100 ∧ (95 : ℚ) / 100 ≤ 1) ∧
    ((estimate_advantages [1, 1, 1, 1] [1, 1, 1, 0] [0, 0, 0, 0] (99 / 100) (95 / 100)).1.length
        = ([1, 1, 1, 1] : List ℚ).length ∧
      (estimate_advantages [1, 1, 1, 1] [1, 1, 1, 0] [0, 0, 0, 0] (99 / 100) (95 / 100)).2.length
        = ([1, 1, 1, 1] : List ℚ).length ∧
      (∀ i, i < ([1, 1, 1, 1] : List ℚ).length →
        (estimate_advantages [1, 1, 1, 1] [1, 1, 1, 0] [0, 0, 0, 0] (99 / 100) (95 / 100)).1.getD i 0
          = (([1, 1, 1, 1] : List ℚ).getD i 0
              + 99 / 100 * ([1, 1, 1, 0] : List ℚ).getD i 0 * ([0, 0, 0, 0] : List ℚ).getD (i + 1) 0
              - ([0, 0, 0, 0] : List ℚ).getD i 0)
            + 99 / 100 * (95 / 100) * ([1, 1, 1, 0] : List ℚ).getD i 0
              * (estimate_advantages [1, 1, 1, 1] [1, 1, 1, 0] [0, 0, 0, 0] (99 / 100) (95 / 100)).1.getD (i + 1) 0) ∧
      (∀ i, i < ([1, 1, 1, 1] : List ℚ).length →
        (estimate_advantages [1, 1, 1, 1] [1, 1, 1, 0] [0, 0, 0, 0] (99 / 100) (95 / 100)).2.getD i 0
          = (estimate_advantages [1, 1, 1, 1] [1, 1, 1, 0] [0, 0, 0, 0] (99 / 100) (95 / 100)).1.getD i 0
            + ([0, 0, 0, 0] : List ℚ).getD i 0) ∧
      (∀ i, i < ([1, 1, 1, 1] : List ℚ).length → ([1, 1, 1, 0] : List ℚ).getD i 0 = 0 →
        ∀ R' M' V' : List ℚ,
          M'.length = R'.length → V'.length = R'.length → i < R'.length →
          ([1, 1, 1, 1] : List ℚ).take (i + 1) = R'.take (i + 1) →
          ([1, 1, 1, 0] : List ℚ).take (i + 1) = M'.take (i + 1) →
          ([0, 0, 0, 0] : List ℚ).take (i + 1) = V'.take (i + 1) →
          (estimate_advantages [1, 1, 1, 1] [1, 1, 1, 0] [0, 0, 0, 0] (99 / 100) (95 / 100)).1.take (i + 1)
            = (estimate_advantages R' M' V' (99 / 100) (95 / 100)).1.take (i + 1) ∧
          (estimate_advantages [1, 1, 1, 1] [1, 1, 1, 0] [0, 0, 0, 0] (99 / 100) (95 / 100)).2.take (i + 1)
            = (estimate_advantages R' M' V' (99 / 100) (95 / 100)).2.take (i + 1))) :=
  ⟨rfl, rfl, by norm_num, by norm_num,
    estimate_advantages_spec (99 / 100) (95 / 100) [1, 1, 1, 1] [1, 1, 1, 0] [0, 0, 0, 0]
      rfl rfl (by norm_num) (by norm_num)⟩

/- ===================== TRPO step: backtracking line search ===================== -/

/-- C2: any step the backtracking line search accepts satisfies measured KL ≤ max_kl and
surrogate ≥ the pre-step surrogate, and is the parameter vector the update installs; and
if no candidate among the configured shrink attempts satisfies both conditions, the
policy parameters after the call equal their pre-call values exactly (the update is a
total function — no error is raised). -/
theorem trpo_step_line_search_spec (surr kl : List ℚ → ℚ) (max_kl : ℚ)
    (θ fullstep : List ℚ) (shrink : ℚ) (attempts : ℕ) :
    (∀ c, lineSearch surr kl max_kl (surr θ) θ fullstep shrink attempts = some c →
      kl c ≤ max_kl ∧ surr θ ≤ surr c ∧
      trpo_step_params surr kl max_kl θ fullstep shrink attempts = c) ∧
    ((∀ c ∈ lineSearchCandidates θ fullstep shrink attempts,
        ¬(kl c ≤ max_kl ∧ surr θ ≤ surr c)) →
      trpo_step_params surr kl max_kl θ fullstep shrink attempts = θ) := by
  constructor
  · intro c hc
    have hp := List.find?_some hc
    simp only [Bool.and_eq_true, decide_eq_true_eq] at hp
    exact ⟨hp.1, hp.2, by simp [trpo_step_params, hc]⟩
  · intro hfail
    have hnone : lineSearch surr kl max_kl (surr θ) θ fullstep shrink attempts = none := by
      rw [lineSearch, List.find?_eq_none]
      intro c hcmem
      simp only [Bool.and_eq_true, decide_eq_true_eq]
      exact fun h => hfail c hcmem ⟨h.1, h.2⟩
    simp [trpo_step_params, hnone]



/-- Concrete instantiation of C2's theorem: the search over θ = [0], fullstep = [1],
shrink = 1/2, two attempts accepts [1] when the KL stays at 0 and installs it; with KL
pinned at 2 > max_kl = 1 every candidate is rejected and θ is restored exactly. -/
theorem trpo_step_line_search_spec_witness :
    (wKlGood [1] ≤ 1 ∧ wSurr [0] ≤ wSurr [1] ∧
      trpo_step_params wSurr wKlGood 1 [0] [1] (1 / 2) 2 = [1]) ∧
    trpo_step_params wSurr wKlBad 1 [0] [1] (1 / 2) 2 = [0] :=
  ⟨(trpo_step_line_search_spec wSurr wKlGood 1 [0] [1] (1 / 2) 2).1 [1]
      (by norm_num [lineSearch, lineSearchCandidates, wSurr, wKlGood, List.range_succ]),
   (trpo_step_line_search_spec wSurr wKlBad 1 [0] [1] (1 / 2) 2).2
      (by norm_num [lineSearchCandidates, wSurr, wKlBad, List.range_succ])⟩

/- ===================== Orchestrator data model ===================== -/

/-- C3: in every `learn` iteration the value estimates used as the bootstrap input to
advantage estimation are computed from the value parameters as they stand before the
iteration's value fit and policy update: the advantage/return arrays equal
`estimate_advantages` on the pre-update value network outputs, they are identical under
any two update routines, and the update is invoked only afterwards, on those arrays. -/
theorem learn_value_before_update (valueNet : List ℚ → ℚ → ℚ)
    (step1 step2 : AgentState → Batch → List ℚ → List ℚ → AgentState)
    (s : AgentState) (γ τ : ℚ) (batch : Batch) (log : CollectLog) :
    ((learn valueNet step1 s γ τ batch log).advantages,
        (learn valueNet step1 s γ τ batch log).returns)
      = estimate_advantages batch.reward batch.mask
          (batch.state.map (valueNet s.valueParams)) γ τ ∧
    (learn valueNet step1 s γ τ batch log).advantages
      = (learn valueNet step2 s γ τ batch log).advantages ∧
    (learn valueNet step1 s γ τ batch log).returns
      = (learn valueNet step2 s γ τ batch log).returns ∧
    (learn valueNet step1 s γ τ batch log).agent
      = step1 s batch (learn valueNet step1 s γ τ batch log).returns
          (learn valueNet step1 s γ τ batch log).advantages :=
  ⟨rfl, rfl, rfl, rfl⟩

/-- C8 (amended): every `learn` iteration emits, via print, the statistics consisting of
the sampled step count, total, min, max and average episode reward and the wall-clock
sample time, and, via the writer, total, average, min and max reward and the step count
— the step count `num_steps`, not the episode count. -/
theorem learn_emits_stats (valueNet : List ℚ → ℚ → ℚ)
    (step : AgentState → Batch → List ℚ → List ℚ → AgentState)
    (s : AgentState) (γ τ : ℚ) (batch : Batch) (log : CollectLog) :
    (learn valueNet step s γ τ batch log).printed
      = [("num steps", (log.num_steps : ℚ)),
         ("total reward", log.total_reward),
         ("min reward", log.min_episode_reward),
         ("max reward", log.max_episode_reward),
         ("average reward", log.avg_reward),
         ("sample time", log.sample_time)] ∧
    (learn valueNet step s γ τ batch log).writerScalars
      = [("total reward", log.total_reward),
         ("average reward", log.avg_reward),
         ("min reward", log.min_episode_reward),
         ("max reward", log.max_episode_reward),
         ("num steps", (log.num_steps : ℚ))] :=
  ⟨rfl, rfl⟩

/-- C8 counterexample: at an iteration whose collector statistics report 3 episodes and
7 steps, the episode count 3 appears nowhere among the values `learn` emits — neither in
the printed statistics nor in the writer scalars — so the emitted statistics do not
consist of the episode count. -/
theorem learn_no_episode_count :
    ((3 : ℚ) ∉ ((learn cValueNet cStep cAgent (99 / 100) (95 / 100) cBatch cLog).printed.map
        Prod.snd)) ∧
    ((3 : ℚ) ∉ ((learn cValueNet cStep cAgent (99 / 100) (95 / 100) cBatch cLog).writerScalars.map
        Prod.snd)) := by
  norm_num [learn, learnPrinted, learnWriterScalars, cLog]

/-- C9: two TRPO instances constructed with the same argument tuple and no model_path
get identical initial policy parameters and identical initial value parameters,
whatever the ambient torch generator state at each construction: `torch.manual_seed`
runs before the networks are built, so initialization is a deterministic function of
the constructor arguments. -/
theorem init_model_deterministic (env_continuous : Bool)
    (initPolicy initDiscretePolicy : ℕ → ℕ → ℕ → List ℚ × ℕ)
    (initValue : ℕ → ℕ → List ℚ × ℕ)
    (num_states num_actions seed : ℕ) (g g' : ℕ) :
    (init_model_params env_continuous initPolicy initDiscretePolicy initValue
        num_states num_actions seed g).1
      = (init_model_params env_continuous initPolicy initDiscretePolicy initValue
          num_states num_actions seed g').1 :=
  rfl

/- ===================== Running normalizer and evaluation ===================== -/

theorem evalLoop_spec {ES Act : Type} (env : Env ES Act) (policy : ℚ → Act) :
    ∀ (fuel : ℕ) (es : ES) (obs : ℚ) (z : ZState) (w : ℚ) (tr : List (ℚ × Bool))
      (zf : ZState),
      evalLoop env policy fuel es obs z = some (w, tr, zf) →
      w = (tr.map Prod.fst).sum ∧
      tr.map Prod.snd = List.replicate (tr.length - 1) false ++ [true] ∧
      zf.n = z.n + tr.length ∧ 0 < tr.length := by
  intro fuel
  induction fuel with
  | zero => intro es obs z w tr zf h; simp [evalLoop] at h
  | succ fuel ih =>
    intro es obs z w tr zf h
    rw [evalLoop] at h
    by_cases hd :
        (env.step es (policy (zfilter_call z obs zfilter_update_default).2)).2.2.2
    · rw [if_pos hd] at h
      simp only [Option.some.injEq, Prod.mk.injEq] at h
      obtain ⟨hw, htr, hzf⟩ := h
      subst hw; subst htr; subst hzf
      refine ⟨by simp, by simp, ?_, by simp⟩
      simp [zfilter_call, zfilter_update_default, zpush]
    · rw [if_neg hd] at h
      rw [Option.map_eq_some'] at h
      obtain ⟨res, hres, hfe⟩ := h
      obtain ⟨hw1, h2, h3, h4⟩ := ih _ _ _ res.1 res.2.1 res.2.2 hres
      simp only [Prod.mk.injEq] at hfe
      obtain ⟨hw, htr, hzf⟩ := hfe
      subst hw; subst htr; subst hzf
      have hlen : 0 < res.2.1.length := h4
      refine ⟨?_, ?_, ?_, ?_⟩
      · simp [hw1]
      · have : res.2.1.length = res.2.1.length - 1 + 1 := by omega
        simp only [List.map_cons, h2, List.length_cons]
        rw [show ((res.2.1.length + 1 - 1 : ℕ)) = (res.2.1.length - 1) + 1 by omega]
        rw [List.replicate_succ]
        simp
      · have hz' : (zfilter_call z obs zfilter_update_default).1.n = z.n + 1 := by
          simp [zfilter_call, zfilter_update_default, zpush]
        simp only [List.length_cons]
        omega
      · simp

/-- C7: every terminating `eval` call runs exactly one episode under the current policy
— stepping the environment from reset until the first step whose done flag is set, every
earlier step not done — and the reported test reward equals the sum of the rewards of
the episode's steps. -/
theorem eval_one_episode {ES Act : Type} (env : Env ES Act) (policy : ℚ → Act)
    (z0 : ZState) (fuel : ℕ) (res : EvalResult)
    (h : eval env policy z0 fuel = some res) :
    res.testReward = (res.trace.map Prod.fst).sum ∧
    res.trace.map Prod.snd = List.replicate (res.trace.length - 1) false ++ [true] := by
  rw [eval] at h
  cases he : evalLoop env policy fuel env.reset.1 env.reset.2 z0 with
  | none => rw [he] at h; simp at h
  | some v =>
    rw [he] at h
    simp only [Option.some.injEq] at h
    obtain ⟨h1, h2, h3, h4⟩ := evalLoop_spec env policy fuel _ _ _ v.1 v.2.1 v.2.2 he
    subst h
    exact ⟨h1, h2⟩

/-- C10: every terminating `eval` call ends with the owned environment closed,
regardless of the episode's reward. -/
theorem eval_closes_env {ES Act : Type} (env : Env ES Act) (policy : ℚ → Act)
    (z0 : ZState) (fuel : ℕ) (res : EvalResult)
    (h : eval env policy z0 fuel = some res) : res.envClosed = true := by
  rw [eval] at h
  cases he : evalLoop env policy fuel env.reset.1 env.reset.2 z0 with
  | none => rw [he] at h; simp at h
  | some v =>
    rw [he] at h
    simp only [Option.some.injEq] at h
    subst h
    rfl

/-- C6 (amended): during an evaluation-only episode the normalizer is called through its
plain, default-updating form — `eval` configures no evaluation-only mode — so each
state-normalization call pushes into the running statistics: a terminating `eval` leaves
the observation count increased by the episode length, which is positive. -/
theorem eval_normalizer_updated {ES Act : Type} (env : Env ES Act) (policy : ℚ → Act)
    (z0 : ZState) (fuel : ℕ) (res : EvalResult)
    (h : eval env policy z0 fuel = some res) :
    res.z.n = z0.n + res.trace.length ∧ 0 < res.trace.length := by
  rw [eval] at h
  cases he : evalLoop env policy fuel env.reset.1 env.reset.2 z0 with
  | none => rw [he] at h; simp at h
  | some v =>
    rw [he] at h
    simp only [Option.some.injEq] at h
    obtain ⟨h1, h2, h3, h4⟩ := evalLoop_spec env policy fuel _ _ _ v.1 v.2.1 v.2.2 he
    subst h
    exact ⟨h3, h4⟩

theorem cEnvDone_eval :
    eval cEnvDone cPolicy ⟨0, 0, 0⟩ 1 = some ⟨1, ⟨1, 0, 0⟩, true, [(1, true)]⟩ := by
  norm_num [eval, evalLoop, zfilter_call, zpush, znorm, zclip, zfilter_update_default,
    cEnvDone, cPolicy]

/-- C6 counterexample: a terminating `eval` episode on a concrete environment changes
the running normalizer's internal statistics — the episode's single state-normalization
call raises the observation count from 0 to 1 — refuting that each call during
evaluation leaves the statistics unchanged. -/
theorem eval_normalizer_changed_counterexample :
    eval cEnvDone cPolicy ⟨0, 0, 0⟩ 1 = some ⟨1, ⟨1, 0, 0⟩, true, [(1, true)]⟩ ∧
    ((⟨1, 0, 0⟩ : ZState) ≠ ⟨0, 0, 0⟩) :=
  ⟨cEnvDone_eval, by decide⟩

/-- Concrete instantiation of C6's amended theorem on a one-step episode. -/
theorem eval_normalizer_updated_witness :
    (⟨1, ⟨1, 0, 0⟩, true, [(1, true)]⟩ : EvalResult).z.n
      = (⟨0, 0, 0⟩ : ZState).n
        + (⟨1, ⟨1, 0, 0⟩, true, [(1, true)]⟩ : EvalResult).trace.length ∧
    0 < (⟨1, ⟨1, 0, 0⟩, true, [(1, true)]⟩ : EvalResult).trace.length :=
  eval_normalizer_updated cEnvDone cPolicy ⟨0, 0, 0⟩ 1
    ⟨1, ⟨1, 0, 0⟩, true, [(1, true)]⟩ cEnvDone_eval

/-- Concrete instantiation of C7's theorem on a one-step episode. -/
theorem eval_one_episode_witness :
    (⟨1, ⟨1, 0, 0⟩, true, [(1, true)]⟩ : EvalResult).testReward
      = ((⟨1, ⟨1, 0, 0⟩, true, [(1, true)]⟩ : EvalResult).trace.map Prod.fst).sum ∧
    (⟨1, ⟨1, 0, 0⟩, true, [(1, true)]⟩ : EvalResult).trace.map Prod.snd
      = List.replicate
          ((⟨1, ⟨1, 0, 0⟩, true, [(1, true)]⟩ : EvalResult).trace.length - 1) false
        ++ [true] :=
  eval_one_episode cEnvDone cPolicy ⟨0, 0, 0⟩ 1
    ⟨1, ⟨1, 0, 0⟩, true, [(1, true)]⟩ cEnvDone_eval

/-- Concrete instantiation of C10's theorem on a one-step episode. -/
theorem eval_closes_env_witness :
    (⟨1, ⟨1, 0, 0⟩, true, [(1, true)]⟩ : EvalResult).envClosed = true :=
  eval_closes_env cEnvDone cPolicy ⟨0, 0, 0⟩ 1
    ⟨1, ⟨1, 0, 0⟩, true, [(1, true)]⟩ cEnvDone_eval

/- ===================== Checkpoint persistence ===================== -/

/-- C4: `save(p)` followed by constructing a new TRPO instance with `model_path = p`
restores exactly the saved policy/value/normalizer triple — both operations address the
file `'{p}/{env_id}_trpo.p'` — so for any action-distribution function of the policy
parameters, the restored policy produces the same distribution as the saved one at every
state. -/
theorem save_load_round_trip (fs : String → Option Checkpoint) (p env_id : String)
    (c fresh : Checkpoint) :
    (trpoConstruct (save fs p env_id c) (some p) env_id fresh).1 = Except.ok c ∧
    ∀ (dist : List ℚ → ℚ → ℚ) (st : ℚ),
      (trpoConstruct (save fs p env_id c) (some p) env_id fresh).1.map
          (fun ck => dist ck.policy st)
        = Except.ok (dist c.policy st) := by
  have hload : save fs p env_id c (model_file_name p env_id) = some c := by
    simp [save]
  constructor
  · simp [trpoConstruct, hload]
  · intro dist st
    simp [trpoConstruct, hload, Except.map]

/-- C5: when `model_path` is set and the persisted file is missing or unreadable, the
failure is raised to the caller during construction — `trpoConstruct` returns the error
— and exactly one load of the file is attempted, so the load is not retried. -/
theorem load_failure_surfaces (fs : String → Option Checkpoint) (p env_id : String)
    (fresh : Checkpoint) (h : fs (model_file_name p env_id) = none) :
    trpoConstruct fs (some p) env_id fresh
      = (Except.error (model_file_name p env_id), [model_file_name p env_id]) := by
  simp [trpoConstruct, h]

/-- Concrete instantiation of C5's theorem on an empty file system. -/
theorem load_failure_surfaces_witness :
    trpoConstruct emptyFS (some "models") "Hopper-v2" ⟨[], [], ⟨0, 0, 0⟩⟩
      = (Except.error (model_file_name "models" "Hopper-v2"),
         [model_file_name "models" "Hopper-v2"]) :=
  load_failure_surfaces emptyFS "models" "Hopper-v2" ⟨[], [], ⟨0, 0, 0⟩⟩ rfl
